import Mathlib

/-!
Shallow embedding of the experiment execution engine of python-xlab
(src/xlab/experiments/experiment.py and src/xlab/experiments/logger.py).

Python scalar values placed in a measurement record are modelled by
PyVal (ints as Int, floats as exact rationals, strings as String).
The numpy structured-array buffer (self._data together with self._len)
is modelled by Buffer: the list rows holds the logical prefix
self._data[:self._len] and cap the physical allocation self._data.shape[0].
Qt timer state is the boolean timerActive; time.monotonic() readings are
supplied from outside as the elapsed argument of each tick.
-/

namespace XLab

/-- Scalar values a measurement record can hold.  Python floats are modelled
by exact rationals. -/
inductive PyVal where
  | int (n : Int)
  | float (q : ℚ)
  | str (s : String)
deriving DecidableEq, Repr

/-- Column datatypes of the numpy structured array: numpy float64, the
generic object dtype, numpy int64, and numpy unicode.  Only the dtypes
reachable through Experiment code are modelled. -/
inductive Dtype where
  | int
  | float
  | str
  | object
deriving DecidableEq, Repr

/-- Datatype of a Python scalar, as type(d) sees it in _on_timer. -/
def dtypeOf : PyVal → Dtype
  | PyVal.int _ => Dtype.int
  | PyVal.float _ => Dtype.float
  | PyVal.str _ => Dtype.str

/-- Experiment.promote_datatype: the mapping {int: float, str: object}
applied with fallthrough to the datatype itself. -/
def promote_datatype : Dtype → Dtype
  | Dtype.int => Dtype.float
  | Dtype.str => Dtype.object
  | d => d

/-- Whitespace accepted around a Python float literal. -/
def isWs (c : Char) : Bool :=
  c = ' ' || c = '\t' || c = '\n' || c = '\r'

/-- Value of a string of decimal digits. -/
def digitsToNat (ds : List Char) : Nat :=
  ds.foldl (fun a c => 10 * a + (c.toNat - 48)) 0

/-- Optional leading sign of a numeric literal. -/
def parseSign : List Char → Int × List Char
  | '+' :: cs => (1, cs)
  | '-' :: cs => ((-1 : Int), cs)
  | cs => (1, cs)

/-- Optional exponent part of a float literal: e or E, an optional sign and
at least one digit; anything else is left unconsumed with exponent 0. -/
def parseExp : List Char → Option (Int × List Char)
  | [] => some (0, [])
  | c :: cs =>
    if c = 'e' || c = 'E' then
      let p := parseSign cs
      let ed := p.2.takeWhile Char.isDigit
      if ed.isEmpty then none
      else some (p.1 * (digitsToNat ed : Int), p.2.dropWhile Char.isDigit)
    else some (0, c :: cs)

/-- The float(s) conversion numpy applies when text is assigned into a
float64 field: surrounding whitespace, an optional sign, a decimal literal
with optional fractional part, and an optional exponent.  Returns none
exactly when the conversion raises ValueError.  Digit-group underscores and
the inf/nan spellings (not representable as exact rationals) are outside
the fragment modelled here. -/
def parsePyFloat? (s : String) : Option ℚ :=
  let cs0 := s.toList.dropWhile isWs
  let p := parseSign cs0
  let ip := p.2.takeWhile Char.isDigit
  let cs2 := p.2.dropWhile Char.isDigit
  let fq : List Char × List Char :=
    match cs2 with
    | '.' :: cs => (cs.takeWhile Char.isDigit, cs.dropWhile Char.isDigit)
    | _ => ([], cs2)
  if ip.isEmpty && fq.1.isEmpty then none
  else
    match parseExp fq.2 with
    | none => none
    | some (ex, cs4) =>
      if (cs4.dropWhile isWs).isEmpty then
        some ((p.1 : ℚ) *
          ((digitsToNat ip : ℚ) + (digitsToNat fq.1 : ℚ) / (10 : ℚ) ^ fq.1.length) *
          (10 : ℚ) ^ ex)
      else none

/-- Storing a scalar into a structured-array field of a given dtype: the
cast numpy performs on each field of self._data[idx] = data.  A float64
field casts an integer exactly and coerces text through float(s); the
coercion of non-numeric text raises ValueError, which storableCell detects
before this function is reached, so the default value produced here for
unparseable text is never stored.  An object field keeps the Python value
unchanged.  Int64 and unicode dtypes never occur in a frozen schema
(promote_datatype maps the int and str input types to float64 and object),
so for them the value is kept unchanged as well. -/
def storeCell : Dtype → PyVal → PyVal
  | Dtype.float, PyVal.int n => PyVal.float (n : ℚ)
  | Dtype.float, PyVal.str s => PyVal.float ((parsePyFloat? s).getD 0)
  | _, v => v

/-- Whether numpy can cast the value into a field of the dtype: a float64
field accepts ints, floats and numeric text, and raises ValueError on
non-numeric text; an object field accepts any value.  (Int64 and unicode
dtypes never occur in a frozen schema.) -/
def storableCell : Dtype → PyVal → Bool
  | Dtype.float, PyVal.str s => (parsePyFloat? s).isSome
  | _, _ => true

/-- Measurement records: the OrderedDict built in _on_timer, as an ordered
association list of column name and value. -/
abbrev Record := List (String × PyVal)

/-- Stored table rows: one value per column, in schema order. -/
abbrev Row := List PyVal

/-- Schema inference on the first accepted record: dtype built in _on_timer
from (name, promote_datatype(type(d))) pairs. -/
def inferSchema (r : Record) : List (String × Dtype) :=
  r.map (fun p => (p.1, promote_datatype (dtypeOf p.2)))

/-- Casting a record's values into a row of the schema's column dtypes
(numpy structured assignment, on values every one of which is storable). -/
def storeRow (schema : List (String × Dtype)) (vals : List PyVal) : Row :=
  (schema.zip vals).map (fun p => storeCell p.1.2 p.2)

/-- Whether the whole structured assignment self._data[idx] = data
succeeds: every value must be castable into its column's dtype, otherwise
the assignment raises ValueError. -/
def storableRow (schema : List (String × Dtype)) (vals : List PyVal) : Bool :=
  (schema.zip vals).all (fun p => storableCell p.1.2 p.2)

/-- The growable structured buffer: self._data (physical size cap, dtype
given by schema) together with the logical length, represented as the list
of the rows actually written, rows = self._data[:self._len]. -/
structure Buffer where
  schema : List (String × Dtype)
  rows : List Row
  cap : Nat
deriving DecidableEq, Repr

/-- Buffer created on the first accepted measurement:
np.empty((2,), dtype) with _len = 0. -/
def newBuffer (r : Record) : Buffer :=
  { schema := inferSchema r, rows := [], cap := 2 }

/-- The doubling step of _on_timer, performed before the row assignment:
if the logical length has reached the physical size, allocate double the
size and copy the existing rows. -/
def bufGrow (b : Buffer) : Buffer :=
  if b.rows.length ≥ b.cap then { b with cap := 2 * b.cap } else b

/-- One successful append into the buffer, following _on_timer: the
doubling step, then the cast record values written at index _len and _len
incremented. -/
def bufAppend (b : Buffer) (vals : List PyVal) : Buffer :=
  let b1 := bufGrow b
  { b1 with rows := b1.rows ++ [storeRow b1.schema vals] }

/-- Errors a tick can raise.  schemaMismatch is the RuntimeError raised by
_on_timer for differing columns; valueError is the ValueError numpy raises
when self._data[idx] = data cannot cast a value into its frozen column
dtype; fileExists is the FileExistsError of open(filename, 'xt');
measurementFailure stands for any exception raised by a measurement,
apply_condition or sink callable. -/
inductive Err where
  | schemaMismatch
  | valueError
  | fileExists
  | measurementFailure (msg : String)
deriving DecidableEq, Repr

/-- Observable calls a tick makes on its collaborators, in order. -/
inductive Event where
  | applyCondCall
  | measureCall
  | logStart (r : Row)
  | logRow (r : Row)
  | plot (n : Nat)
  | logFinish
deriving DecidableEq, Repr

/-- Mutable state of an Experiment instance (the fields set in __init__ and
mutated by start, stop and _on_timer).  mpc models
_measurements_per_condition, with none standing for float('inf'). -/
structure ExpState where
  conditions : List (String × List PyVal)
  mpc : Option Nat
  timerActive : Bool
  buffer : Option Buffer
  first : Bool
  measForCond : Nat
  sweepVars : List String
  varValues : List PyVal
  pending : List (List PyVal)
deriving DecidableEq, Repr

/-- Experiment.__init__: stores the conditions and resolves the
measurements_per_condition default (1 when conditions are given, infinity
otherwise); the buffer starts absent and the timer disarmed. -/
def mkExperiment (mpcArg : Option Nat) (conditions : List (String × List PyVal)) : ExpState :=
  { conditions := conditions
    mpc :=
      match mpcArg with
      | some m => some m
      | none => if conditions.isEmpty then none else some 1
    timerActive := false
    buffer := none
    first := false
    measForCond := 0
    sweepVars := []
    varValues := []
    pending := [] }

/-- Heads and tails of a list of columns: one step of Python's zip(*values),
returning none as soon as any column is exhausted. -/
def headsOf : List (List PyVal) → Option (List PyVal × List (List PyVal))
  | [] => some ([], [])
  | [] :: _ => none
  | (a :: as) :: rest =>
    match headsOf rest with
    | none => none
    | some (hs, ts) => some (a :: hs, as :: ts)

/-- Fuelled transposition loop for zipRows. -/
def zipRowsAux : Nat → List (List PyVal) → List (List PyVal)
  | 0, _ => []
  | n + 1, cols =>
    match headsOf cols with
    | none => []
    | some (hs, ts) => hs :: zipRowsAux n ts

/-- Python's list(zip(*values)): the rows of the condition sweep, truncated
at the shortest value sequence.  The first column's length bounds the number
of rows, so it serves as fuel. -/
def zipRows (cols : List (List PyVal)) : List (List PyVal) :=
  match cols with
  | [] => []
  | c :: rest => zipRowsAux c.length (c :: rest)

/-- Experiment.start: set up variables and the sweep iterator from the
stored conditions (forcing a condition advance on the first tick by
presetting the repeat counter to its limit), raise the first-sample flag and
arm the timer.  Note that neither the buffer nor its contents are reset. -/
def start (s : ExpState) : ExpState :=
  let s1 :=
    if s.conditions.isEmpty then
      { s with sweepVars := [], pending := [], measForCond := 0 }
    else
      { s with
        sweepVars := s.conditions.map Prod.fst
        pending := zipRows (s.conditions.map Prod.snd)
        measForCond := s.mpc.getD 0 }
  { s1 with first := true, timerActive := true }

/-- Experiment.stop: disarm the timer and run the logger finish hook. -/
def stop (s : ExpState) : ExpState × List Event :=
  ({ s with timerActive := false }, [Event.logFinish])

/-- Experiment.get_data: self._data[:self._len].copy().  When no sample has
been accepted yet, self._data is None and the subscription raises a
TypeError, modelled as none. -/
def get_data (s : ExpState) : Option (List Row) :=
  s.buffer.map Buffer.rows

/-- Logical rows currently stored (empty when the buffer does not exist). -/
def rowsOf (s : ExpState) : List Row :=
  match s.buffer with
  | none => []
  | some b => b.rows

/-- Result of the condition-advance block at the top of _on_timer. -/
inductive SweepStep where
  | stopped (s : ExpState)
  | cont (s : ExpState) (changed : Bool)
deriving DecidableEq, Repr

/-- Condition-advance block of _on_timer: when the repeat counter has
reached its limit, reset it and pull the next sweep row (StopIteration
leads to self.stop()); otherwise only the counter advances.  An infinite
limit (mpc = none) never advances the sweep. -/
def sweepAdvance (s : ExpState) : SweepStep :=
  match s.mpc with
  | some m =>
    if s.measForCond ≥ m then
      match s.pending with
      | [] => SweepStep.stopped { s with measForCond := 0, timerActive := false }
      | v :: rest =>
        SweepStep.cont { s with measForCond := 1, varValues := v, pending := rest } true
    else
      SweepStep.cont { s with measForCond := s.measForCond + 1 } false
  | none => SweepStep.cont { s with measForCond := s.measForCond + 1 } false

/-- The measurement record before the measure call: a time column holding
the elapsed clock reading, then one column per swept variable (zip
truncation as in the Python for loop). -/
def buildRec (elapsed : ℚ) (vars : List String) (vals : List PyVal) : Record :=
  ("time", PyVal.float elapsed) :: vars.zip vals

/-- Disarming the timer (the except branch of _on_timer). -/
def disarm (s : ExpState) : ExpState :=
  { s with timerActive := false }

/-- Collaborator callables of one tick: the measurement function (returns
the record it extended, or the exception it raised), the apply_condition
hook and the logger start and log hooks. -/
structure TickHooks where
  measure : Record → Except Err Record
  applyCond : Record → Except Err Unit
  logStartH : Row → Except Err Unit
  logH : Row → Except Err Unit

/-- Outcome of one tick: the successor state, the collaborator calls made,
and the exception that escaped _on_timer, if any. -/
structure TickOut where
  state : ExpState
  events : List Event
  err : Option Err
deriving Repr

/-- Tail of _on_timer after the append: store the row, then logger start
hook on the first sample of the run, the log hook, the plot hooks, and
finally clear the first-sample flag.  Any hook failure leaves the appended
row in place, disarms the timer and re-raises. -/
def finishTick (h : TickHooks) (s1 : ExpState) (evs : List Event) (b : Buffer)
    (vals : List PyVal) : TickOut :=
  let row := storeRow b.schema vals
  let b2 := bufAppend b vals
  let s2 := { s1 with buffer := some b2 }
  let evs2 := evs ++ (if s1.first then [Event.logStart row] else [])
  match (if s1.first then h.logStartH row else Except.ok ()) with
  | Except.error e => { state := disarm s2, events := evs2, err := some e }
  | Except.ok _ =>
    match h.logH row with
    | Except.error e =>
      { state := disarm s2, events := evs2 ++ [Event.logRow row], err := some e }
    | Except.ok _ =>
      { state := { s2 with first := false }
        events := evs2 ++ [Event.logRow row, Event.plot b2.rows.length]
        err := none }

/-- One firing of the timer callback Experiment._on_timer: advance the
sweep (stopping the run on exhaustion), build the record, run
apply_condition on a condition change, run the measurement function, infer
or check the schema by column names, grow the buffer, then perform the
structured assignment (which raises ValueError when a value cannot be cast
into its frozen column dtype, leaving the grown buffer with its logical
rows unchanged), and drive the sinks.  Any exception disarms the timer and
is reported in err. -/
def tick (h : TickHooks) (elapsed : ℚ) (s : ExpState) : TickOut :=
  match sweepAdvance s with
  | SweepStep.stopped s1 =>
    { state := s1, events := [Event.logFinish], err := none }
  | SweepStep.cont s1 changed =>
    let rec0 := buildRec elapsed s1.sweepVars s1.varValues
    let evs0 := if changed then [Event.applyCondCall] else []
    match (if changed then h.applyCond rec0 else Except.ok ()) with
    | Except.error e => { state := disarm s1, events := evs0, err := some e }
    | Except.ok _ =>
      match h.measure rec0 with
      | Except.error e =>
        { state := disarm s1, events := evs0 ++ [Event.measureCall], err := some e }
      | Except.ok rec1 =>
        let evs1 := evs0 ++ [Event.measureCall]
        match s1.buffer with
        | none =>
          let b := newBuffer rec1
          if storableRow b.schema (rec1.map Prod.snd) then
            finishTick h s1 evs1 b (rec1.map Prod.snd)
          else
            { state := disarm { s1 with buffer := some (bufGrow b) }
              events := evs1, err := some Err.valueError }
        | some b =>
          if rec1.map Prod.fst = b.schema.map Prod.fst then
            if storableRow b.schema (rec1.map Prod.snd) then
              finishTick h s1 evs1 b (rec1.map Prod.snd)
            else
              { state := disarm { s1 with buffer := some (bufGrow b) }
                events := evs1, err := some Err.valueError }
          else
            { state := disarm s1, events := evs1, err := some Err.schemaMismatch }

/-- Driving the armed timer for up to n firings, with per-tick hooks and
clock readings indexed by the tick number.  The loop stops early when the
timer is disarmed (run completion) or an exception escapes a tick. -/
def runFrom (h : Nat → TickHooks) (t : Nat → ℚ) :
    Nat → Nat → ExpState → ExpState × List Event × Option Err
  | _, 0, s => (s, [], none)
  | i, n + 1, s =>
    if s.timerActive then
      let out := tick (h i) (t i) s
      match out.err with
      | some e => (out.state, out.events, some e)
      | none =>
        let rest := runFrom h t (i + 1) n out.state
        (rest.1, out.events ++ rest.2.1, rest.2.2)
    else
      (s, [], none)

/-- Hooks that never fail: the measurement function returns the record
unchanged and every sink call succeeds. -/
def okHooks : TickHooks :=
  { measure := fun r => Except.ok r
    applyCond := fun _ => Except.ok ()
    logStartH := fun _ => Except.ok ()
    logH := fun _ => Except.ok () }

/-- Clock supplying reading i at tick i. -/
def tNat : Nat → ℚ := fun i => (i : ℚ)

/-- The run of the sweep-determinism scenario: conditions v = 1, 2, 3 with
two measurements per condition, driven for seven timer firings. -/
def c1Run : ExpState × List Event × Option Err :=
  runFrom (fun _ => okHooks) tNat 0 7
    (start (mkExperiment (some 2) [("v", [PyVal.int 1, PyVal.int 2, PyVal.int 3])]))

/-!
CSV logger and reader (src/xlab/experiments/logger.py).

File text is modelled at the character-list level: a file is the list of
its lines, each line a list of characters.  CsvLogger's print calls with a
sep argument are modelled by joinSep; np.genfromtxt with delimiter=','
splits every line at commas, modelled by splitSep.  The utf-8 encode on
write and decode on read compose to the identity at this level of
abstraction, so text cells round-trip through the byte encoding unchanged.
The separator is modelled as a single character (the code's default ','
and the failure cases of interest are single characters).
-/

/-- Joining tokens with a separator character, as print with a sep argument
renders one line. -/
def joinSep (sep : Char) : List (List Char) → List Char
  | [] => []
  | [t] => t
  | t :: ts => t ++ sep :: joinSep sep ts

/-- Splitting a line at every occurrence of a separator character (the
tokenisation np.genfromtxt performs at its delimiter). -/
def splitSep (sep : Char) : List Char → List (List Char)
  | [] => [[]]
  | c :: cs =>
    match splitSep sep cs with
    | [] => if c = sep then [[], []] else [[c]]
    | t :: ts => if c = sep then [] :: t :: ts else (c :: t) :: ts

/-- CsvLogger output over a whole run: start prints the header line of
column names joined by the configured separator, and each log call prints
one line of the row's values joined by the same separator. -/
def csvWrite (sep : Char) (names : List (List Char)) (rows : List (List (List Char))) :
    List (List Char) :=
  joinSep sep names :: rows.map (joinSep sep)

/-- read_csv: np.genfromtxt(filename, delimiter=',', names=True) takes the
first line as the column names and every further line as one row, always
splitting at commas regardless of the separator the writer used; the
subsequent utf-8 decode of text cells is the identity here. -/
def read_csv (file : List (List Char)) : List (List Char) × List (List (List Char)) :=
  match file with
  | [] => ([], [])
  | header :: rest => (splitSep ',' header, rest.map (splitSep ','))

/-- CsvLogger.start's file handling: open(self._filename, 'xt',
encoding='utf-8') creates the file exclusively, raising FileExistsError when
the name already exists.  The file system is the list of existing names. -/
def csvLoggerStart (fs : List String) (filename : String) : Except Err (List String) :=
  if filename ∈ fs then Except.error Err.fileExists else Except.ok (filename :: fs)

/-- Hooks of a run whose only registered logger is a CsvLogger writing to
filename against the file system fs, with measurement function mf: the
logger start hook performs the exclusive-create open. -/
def csvHooks (fs : List String) (filename : String) (mf : Record → Except Err Record) :
    TickHooks :=
  { measure := mf
    applyCond := fun _ => Except.ok ()
    logStartH := fun _ => Except.map (fun _ => ()) (csvLoggerStart fs filename)
    logH := fun _ => Except.ok () }

/-- State after one tick of a condition-free run with ok hooks: the buffer
exists and holds one sample.  Used to instantiate theorems with
hypotheses on concrete, reachable states. -/
def w1State : ExpState :=
  (runFrom (fun _ => okHooks) tNat 0 1 (start (mkExperiment none []))).1

/-- The sweep-advance successor of w1State (repeat counter bumped). -/
def w1State1 : ExpState :=
  { w1State with measForCond := 2 }

/-- The buffer held by w1State. -/
def w1Buf : Buffer :=
  { schema := [("time", Dtype.float)], rows := [[PyVal.float 0]], cap := 2 }

/-- Selects the calls made on a logger: the start, per-sample log and
finish hooks (plot and measurement calls are not logger calls). -/
def isLoggerEvent : Event → Bool
  | Event.logStart _ => true
  | Event.logRow _ => true
  | Event.logFinish => true
  | _ => false

/-- The subsequence of an event list consisting of the logger calls. -/
def loggerEvents (evs : List Event) : List Event :=
  evs.filter isLoggerEvent

/-- Per-tick hooks of the uncastable-value scenario: the measurement
function adds a column x holding the integer 0 on the first tick (freezing
x at float64) and the non-numeric text oops on every later tick. -/
def c2BadHooks : Nat → TickHooks := fun i =>
  { okHooks with
    measure := fun r =>
      Except.ok (r ++ [("x", if i = 0 then PyVal.int 0 else PyVal.str "oops")]) }

/-- Two ticks of the uncastable-value scenario on a fresh condition-free
run. -/
def c2BadRun : ExpState × List Event × Option Err :=
  runFrom c2BadHooks tNat 0 2 (start (mkExperiment none []))

/-- Per-tick hooks of the fail-stop scenario: the measurement function
succeeds on the first four ticks and raises on every later tick. -/
def w6Hooks : Nat → TickHooks := fun i =>
  { okHooks with
    measure := fun r =>
      if i < 4 then Except.ok r else Except.error (Err.measurementFailure "boom") }

/-- Per-tick hooks of the type-promotion scenario: the measurement function
adds a column x holding the integer 0 on the first tick and the float 1/2
on every later tick. -/
def w8Hooks : Nat → TickHooks := fun i =>
  { okHooks with
    measure := fun r =>
      Except.ok (r ++ [("x", if i = 0 then PyVal.int 0 else PyVal.float (1 / 2))]) }

/-- Two ticks of the type-promotion scenario on a fresh condition-free
run. -/
def c8Run : ExpState × List Event × Option Err :=
  runFrom w8Hooks tNat 0 2 (start (mkExperiment none []))

/-- An unequal-length condition set: variable a has one value, variable b
has two. -/
def unequalConds : List (String × List PyVal) :=
  [("a", [PyVal.int 1]), ("b", [PyVal.int 1, PyVal.int 2])]

/-- One tick of a run constructed from the unequal-length condition set. -/
def c4Run : ExpState × List Event × Option Err :=
  runFrom (fun _ => okHooks) tNat 0 1 (start (mkExperiment none unequalConds))

end XLab

namespace XLab

/-- C1: with conditions v = [1, 2, 3] and measurements_per_condition = 2,
the v values bound across ticks are 1, 1, 2, 2, 3, 3 (stored as floats
after int-to-float promotion); the seventh firing exhausts the sweep and
stops the run normally: no error escapes, the timer ends disarmed, exactly
six measurement calls are made (none on the terminating tick, whose only
action is the logger finish hook). -/
theorem c1_sweep_determinism :
    c1Run.2.2 = none ∧
    c1Run.1.timerActive = false ∧
    get_data c1Run.1 = some
      [[PyVal.float 0, PyVal.float 1], [PyVal.float 1, PyVal.float 1],
       [PyVal.float 2, PyVal.float 2], [PyVal.float 3, PyVal.float 2],
       [PyVal.float 4, PyVal.float 3], [PyVal.float 5, PyVal.float 3]] ∧
    c1Run.2.1.count Event.measureCall = 6 ∧
    c1Run.2.1.getLast? = some Event.logFinish := by
  refine ⟨?_, ?_, ?_, ?_, ?_⟩ <;> decide

/-- The doubling step never changes the logical rows. -/
theorem bufGrow_rows (b : Buffer) : (bufGrow b).rows = b.rows := by
  unfold bufGrow
  split <;> rfl

/-- Appending to the buffer extends the logical rows by exactly the cast
record values, whether or not the allocation was doubled. -/
theorem bufAppend_rows (b : Buffer) (vals : List PyVal) :
    (bufAppend b vals).rows = b.rows ++ [storeRow b.schema vals] := by
  unfold bufAppend bufGrow
  split <;> rfl

/-- Appending never changes the schema. -/
theorem bufAppend_schema (b : Buffer) (vals : List PyVal) :
    (bufAppend b vals).schema = b.schema := by
  unfold bufAppend bufGrow
  split <;> rfl

/-- Capacity after an append: doubled exactly when the logical length had
reached the physical size. -/
theorem bufAppend_cap (b : Buffer) (vals : List PyVal) :
    (bufAppend b vals).cap = if b.rows.length ≥ b.cap then 2 * b.cap else b.cap := by
  unfold bufAppend bufGrow
  split <;> simp_all

/-- A record's own values are always castable into the schema inferred
from that record: int and str input types are promoted to float64 and
object, and an int is castable into float64 while any value is storable in
an object field; hence the very first structured assignment of a run never
raises ValueError. -/
theorem storableRow_inferSchema (r : Record) :
    storableRow (inferSchema r) (r.map Prod.snd) = true := by
  induction r with
  | nil => rfl
  | cons p r ih =>
    obtain ⟨name, v⟩ := p
    simp only [inferSchema, List.map_cons, storableRow, List.zip_cons_cons, List.all_cons,
      Bool.and_eq_true]
    refine ⟨?_, ?_⟩
    · cases v <;> rfl
    · simpa [storableRow, inferSchema] using ih

/-- The tail of a tick stores the appended buffer in the state before any
logger hook runs, so the row survives hook failures. -/
theorem finishTick_buffer (h : TickHooks) (s1 : ExpState) (evs : List Event)
    (b : Buffer) (vals : List PyVal) :
    (finishTick h s1 evs b vals).state.buffer = some (bufAppend b vals) := by
  simp only [finishTick]
  split
  · rfl
  · split <;> rfl

/-- C2 counterexample: after a first measurement carrying x = 0 freezes
column x at float64, a second measurement carrying the non-numeric text
oops for x has exactly the frozen column names in the frozen order, yet no
row is appended: the structured assignment raises ValueError, the run
aborts with that error, the timer is disarmed, and the snapshot still
holds only the first row.  This refutes the claim that every name-matching
record appends one row. -/
theorem c2_matching_names_not_appended :
    ((buildRec (tNat 1) [] [] ++ [("x", PyVal.str "oops")]).map Prod.fst =
      ["time", "x"]) ∧
    c2BadRun.1.buffer.map (fun b => b.schema.map Prod.fst) = some ["time", "x"] ∧
    c2BadRun.2.2 = some Err.valueError ∧
    c2BadRun.1.timerActive = false ∧
    get_data c2BadRun.1 = some [[PyVal.float 0, PyVal.float 0]] := by
  refine ⟨?_, ?_, ?_, ?_, ?_⟩ <;> decide

/-- C2 amended: on a tick that reaches the schema check (the sweep
continues, the condition hook and measurement function succeed) against an
existing buffer, a record with the frozen column names in the frozen order
whose values are all castable into the frozen column dtypes is appended and
the snapshot grows by exactly that one row; a name-matching record with an
uncastable value (non-numeric text for a float64 column) raises valueError
at the assignment, appending nothing; and a record with any other column
list raises schemaMismatch before appending.  In both error cases the timer
is disarmed and the previously appended rows remain retrievable
unchanged. -/
theorem c2_amended_schema_freeze (h : TickHooks) (e : ℚ) (s s1 : ExpState) (ch : Bool)
    (b : Buffer) (r : Record)
    (hsw : sweepAdvance s = SweepStep.cont s1 ch)
    (hac : ch = true → h.applyCond (buildRec e s1.sweepVars s1.varValues) = Except.ok ())
    (hm : h.measure (buildRec e s1.sweepVars s1.varValues) = Except.ok r)
    (hb : s1.buffer = some b) :
    (r.map Prod.fst = b.schema.map Prod.fst →
      (storableRow b.schema (r.map Prod.snd) = true →
        get_data (tick h e s).state = some (b.rows ++ [storeRow b.schema (r.map Prod.snd)])) ∧
      (storableRow b.schema (r.map Prod.snd) = false →
        (tick h e s).err = some Err.valueError ∧
        (tick h e s).state.timerActive = false ∧
        get_data (tick h e s).state = some b.rows)) ∧
    (r.map Prod.fst ≠ b.schema.map Prod.fst →
      (tick h e s).err = some Err.schemaMismatch ∧
      (tick h e s).state.timerActive = false ∧
      get_data (tick h e s).state = some b.rows) := by
  have hacr : (if ch = true then h.applyCond (buildRec e s1.sweepVars s1.varValues)
      else Except.ok ()) = Except.ok () := by
    cases ch with
    | false => simp
    | true => simpa using hac rfl
  simp only [tick, hsw, hacr, hm, hb]
  refine ⟨?_, ?_⟩
  · intro hcols
    rw [if_pos hcols]
    refine ⟨?_, ?_⟩
    · intro hstor
      rw [if_pos hstor]
      simp [get_data, finishTick_buffer, bufAppend_rows]
    · intro hstor
      rw [if_neg (by simp [hstor])]
      exact ⟨rfl, rfl, by simp [get_data, disarm, bufGrow_rows]⟩
  · intro hcols
    rw [if_neg hcols]
    exact ⟨rfl, rfl, by simp [get_data, disarm, hb]⟩

/-- Witness for the amended C2 at a reachable state: after one accepted
sample of a condition-free run, a matching record with a storable value
appends; all hypotheses hold computationally. -/
theorem c2_amended_schema_freeze_witness :
    (sweepAdvance w1State = SweepStep.cont w1State1 false ∧
      okHooks.measure (buildRec 1 w1State1.sweepVars w1State1.varValues) =
        Except.ok [("time", PyVal.float 1)] ∧
      w1State1.buffer = some w1Buf) ∧
    ((([("time", PyVal.float 1)] : Record).map Prod.fst = w1Buf.schema.map Prod.fst →
      (storableRow w1Buf.schema (([("time", PyVal.float 1)] : Record).map Prod.snd) = true →
        get_data (tick okHooks 1 w1State).state =
          some (w1Buf.rows ++
            [storeRow w1Buf.schema ([("time", PyVal.float 1)].map Prod.snd)])) ∧
      (storableRow w1Buf.schema (([("time", PyVal.float 1)] : Record).map Prod.snd) = false →
        (tick okHooks 1 w1State).err = some Err.valueError ∧
        (tick okHooks 1 w1State).state.timerActive = false ∧
        get_data (tick okHooks 1 w1State).state = some w1Buf.rows)) ∧
    (([("time", PyVal.float 1)] : Record).map Prod.fst ≠ w1Buf.schema.map Prod.fst →
      (tick okHooks 1 w1State).err = some Err.schemaMismatch ∧
      (tick okHooks 1 w1State).state.timerActive = false ∧
      get_data (tick okHooks 1 w1State).state = some w1Buf.rows)) :=
  ⟨⟨by decide, by rfl, by decide⟩,
    c2_amended_schema_freeze okHooks 1 w1State w1State1 false w1Buf [("time", PyVal.float 1)]
      (by decide) (by intro hx; cases hx) (by rfl) (by decide)⟩

/-- C3 counterexample: on a freshly started experiment, before the first
sample is accepted, self._data is still None, so get_data() does not
succeed (in Python the subscription of None raises a TypeError, modelled
here by the none result); this refutes the claim that get_data() succeeds
at every moment. -/
theorem c3_get_data_before_first_sample :
    get_data (start (mkExperiment none [])) = none := by
  decide

/-- C3 amended: once at least one sample has been accepted, get_data()
succeeds and returns exactly the rows accumulated since construction, in
insertion order; and since start() does not reset the buffer, the same rows
are still returned right after a restart, so the data is cumulative across
runs rather than per-run. -/
theorem c3_amended_get_data (s : ExpState) (b : Buffer) (hb : s.buffer = some b) :
    get_data s = some b.rows ∧ get_data (start s) = some b.rows := by
  refine ⟨by simp [get_data, hb], ?_⟩
  simp only [start, get_data]
  split <;> simp [hb]

/-- Witness for the amended C3 at the reachable one-sample state. -/
theorem c3_amended_get_data_witness :
    w1State.buffer = some w1Buf ∧
    get_data w1State = some w1Buf.rows ∧
    get_data (start w1State) = some w1Buf.rows :=
  ⟨by decide,
    (c3_amended_get_data w1State w1Buf (by decide)).1,
    (c3_amended_get_data w1State w1Buf (by decide)).2⟩

/-- C4 counterexample: constructing and starting an experiment over the
unequal-length condition set raises no error at all, and the first tick
proceeds to take a measurement; the truncated sweep holds a single row
pairing the positions common to both sequences.  This refutes the claim
that a ConstructionError is raised before any tick runs. -/
theorem c4_no_construction_error :
    (start (mkExperiment none unequalConds)).pending = [[PyVal.int 1, PyVal.int 1]] ∧
    c4Run.2.2 = none ∧
    Event.measureCall ∈ c4Run.2.1 ∧
    get_data c4Run.1 =
      some [[PyVal.float 0, PyVal.float 1, PyVal.float 1]] := by
  refine ⟨?_, ?_, ?_, ?_⟩ <;> decide

/-- Transposition of exactly two columns is the positionwise zip, truncated
at the shorter column. -/
theorem zipRows_pair (xs ys : List PyVal) :
    zipRows [xs, ys] = (xs.zip ys).map (fun p => [p.1, p.2]) := by
  induction xs generalizing ys with
  | nil => rfl
  | cons x xs ih =>
    cases ys with
    | nil => simp [zipRows, zipRowsAux, headsOf]
    | cons y ys =>
      simp only [zipRows, zipRowsAux, headsOf, List.length_cons, List.zip_cons_cons,
        List.map_cons]
      exact congrArg _ (by simpa [zipRows] using ih ys)

/-- C4 amended: a condition set whose two value sequences have unequal
lengths is accepted silently; start() builds the sweep by positionwise
pairing truncated at the shorter sequence, so the number of condition rows
is the minimum of the two lengths and the surplus values are dropped. -/
theorem c4_amended_truncation (a b : String) (xs ys : List PyVal) (mpcArg : Option Nat) :
    (start (mkExperiment mpcArg [(a, xs), (b, ys)])).pending =
      (xs.zip ys).map (fun p => [p.1, p.2]) ∧
    (start (mkExperiment mpcArg [(a, xs), (b, ys)])).pending.length =
      min xs.length ys.length := by
  have hpend : (start (mkExperiment mpcArg [(a, xs), (b, ys)])).pending =
      zipRows [xs, ys] := by
    simp [start, mkExperiment]
  rw [hpend, zipRows_pair]
  simp

/-- One append preserves the table invariant: the logical length stays
within the (positive) physical capacity. -/
theorem bufAppend_inv (b : Buffer) (v : List PyVal)
    (hinv : b.rows.length ≤ b.cap) (hc : 0 < b.cap) :
    (bufAppend b v).rows.length ≤ (bufAppend b v).cap ∧ 0 < (bufAppend b v).cap := by
  rw [bufAppend_rows, bufAppend_cap]
  simp only [List.length_append, List.length_singleton]
  split <;> constructor <;> omega

/-- Folding appends over a buffer concatenates the cast rows in order. -/
theorem foldl_bufAppend_rows (vs : List (List PyVal)) :
    ∀ b : Buffer, (vs.foldl bufAppend b).rows = b.rows ++ vs.map (storeRow b.schema) := by
  induction vs with
  | nil => intro b; simp
  | cons v vs ih =>
    intro b
    simp only [List.foldl_cons, List.map_cons]
    rw [ih (bufAppend b v), bufAppend_rows, bufAppend_schema]
    simp

/-- Folding appends preserves the table invariant. -/
theorem foldl_bufAppend_inv (vs : List (List PyVal)) :
    ∀ b : Buffer, b.rows.length ≤ b.cap → 0 < b.cap →
      (vs.foldl bufAppend b).rows.length ≤ (vs.foldl bufAppend b).cap ∧
      0 < (vs.foldl bufAppend b).cap := by
  induction vs with
  | nil => intro b h1 h2; exact ⟨h1, h2⟩
  | cons v vs ih =>
    intro b h1 h2
    have h3 := bufAppend_inv b v h1 h2
    exact ih (bufAppend b v) h3.1 h3.2

/-- C7: an append on a buffer satisfying the invariant keeps the logical
length within the capacity, doubles the capacity exactly when the length
would otherwise exceed it, and extends the rows by one at the end; hence
appending any sequence of records to the freshly allocated two-row buffer
yields exactly those rows, in insertion order, one per append, with the
invariant holding throughout. -/
theorem c7_growth_correctness (b : Buffer) (v : List PyVal)
    (hinv : b.rows.length ≤ b.cap) (hc : 0 < b.cap)
    (vs : List (List PyVal)) (r0 : Record) :
    ((bufAppend b v).rows.length ≤ (bufAppend b v).cap ∧ 0 < (bufAppend b v).cap) ∧
    (bufAppend b v).rows = b.rows ++ [storeRow b.schema v] ∧
    (b.rows.length = b.cap → (bufAppend b v).cap = 2 * b.cap) ∧
    (vs.foldl bufAppend (newBuffer r0)).rows = vs.map (storeRow (inferSchema r0)) ∧
    (vs.foldl bufAppend (newBuffer r0)).rows.length = vs.length ∧
    (vs.foldl bufAppend (newBuffer r0)).rows.length ≤ (vs.foldl bufAppend (newBuffer r0)).cap := by
  have hrows := foldl_bufAppend_rows vs (newBuffer r0)
  have hinv2 := foldl_bufAppend_inv vs (newBuffer r0) (by simp [newBuffer]) (by simp [newBuffer])
  refine ⟨bufAppend_inv b v hinv hc, bufAppend_rows b v, ?_, ?_, ?_, hinv2.1⟩
  · intro hfull
    rw [bufAppend_cap]
    simp [hfull]
  · simpa [newBuffer] using hrows
  · rw [hrows]; simp [newBuffer]

/-- Witness for C7: the initial two-row buffer of a time-only record,
appended once directly, and five records folded across the first doubling
boundary. -/
theorem c7_growth_correctness_witness :
    ((w1Buf.rows.length ≤ w1Buf.cap ∧ 0 < w1Buf.cap) ∧
      ((bufAppend w1Buf [PyVal.float 1]).rows.length ≤ (bufAppend w1Buf [PyVal.float 1]).cap ∧
        0 < (bufAppend w1Buf [PyVal.float 1]).cap) ∧
      (bufAppend w1Buf [PyVal.float 1]).rows =
        w1Buf.rows ++ [storeRow w1Buf.schema [PyVal.float 1]] ∧
      (w1Buf.rows.length = w1Buf.cap →
        (bufAppend w1Buf [PyVal.float 1]).cap = 2 * w1Buf.cap) ∧
      (([[PyVal.float 1], [PyVal.float 2], [PyVal.float 3], [PyVal.float 4],
          [PyVal.float 5]].foldl bufAppend (newBuffer [("time", PyVal.float 0)])).rows =
        [[PyVal.float 1], [PyVal.float 2], [PyVal.float 3], [PyVal.float 4],
          [PyVal.float 5]].map (storeRow (inferSchema [("time", PyVal.float 0)])) ∧
      ([[PyVal.float 1], [PyVal.float 2], [PyVal.float 3], [PyVal.float 4],
          [PyVal.float 5]].foldl bufAppend (newBuffer [("time", PyVal.float 0)])).rows.length = 5 ∧
      ([[PyVal.float 1], [PyVal.float 2], [PyVal.float 3], [PyVal.float 4],
          [PyVal.float 5]].foldl bufAppend (newBuffer [("time", PyVal.float 0)])).rows.length ≤
        ([[PyVal.float 1], [PyVal.float 2], [PyVal.float 3], [PyVal.float 4],
          [PyVal.float 5]].foldl bufAppend (newBuffer [("time", PyVal.float 0)])).cap)) :=
  ⟨⟨by decide, by decide⟩,
    c7_growth_correctness w1Buf [PyVal.float 1] (by decide) (by decide)
      [[PyVal.float 1], [PyVal.float 2], [PyVal.float 3], [PyVal.float 4], [PyVal.float 5]]
      [("time", PyVal.float 0)]⟩

/-- C10: when the CsvLogger's target filename already exists, the
exclusive-create open in the logger start hook fails with the file-exists
error on the tick that logs the first sample, which disarms the timer and
propagates the error, aborting the run on its first tick. -/
theorem c10_csv_exclusive_create (fs : List String) (fname : String)
    (mf : Record → Except Err Record) (e : ℚ) (s s1 : ExpState) (ch : Bool) (r : Record)
    (hmem : fname ∈ fs)
    (hsw : sweepAdvance s = SweepStep.cont s1 ch)
    (hfirst : s1.first = true)
    (hbuf : s1.buffer = none)
    (hm : mf (buildRec e s1.sweepVars s1.varValues) = Except.ok r) :
    csvLoggerStart fs fname = Except.error Err.fileExists ∧
    (tick (csvHooks fs fname mf) e s).err = some Err.fileExists ∧
    (tick (csvHooks fs fname mf) e s).state.timerActive = false := by
  have hcsv : csvLoggerStart fs fname = Except.error Err.fileExists := by
    simp [csvLoggerStart, hmem]
  refine ⟨hcsv, ?_⟩
  cases ch with
  | false =>
    simp [tick, hsw, csvHooks, hm, hbuf, finishTick, hfirst, hcsv, disarm, Except.map,
      newBuffer, storableRow_inferSchema]
  | true =>
    simp [tick, hsw, csvHooks, hm, hbuf, finishTick, hfirst, hcsv, disarm, Except.map,
      newBuffer, storableRow_inferSchema]

/-- The condition-advance block leaves the buffer, the first-sample flag
and the conditions untouched when the sweep continues, and preserves the
timer state. -/
theorem sweepAdvance_cont_fields {s s1 : ExpState} {ch : Bool}
    (h : sweepAdvance s = SweepStep.cont s1 ch) :
    s1.buffer = s.buffer ∧ s1.first = s.first ∧ s1.timerActive = s.timerActive := by
  unfold sweepAdvance at h
  split at h
  · split at h
    · split at h
      · cases h
      · cases h; exact ⟨rfl, rfl, rfl⟩
    · cases h; exact ⟨rfl, rfl, rfl⟩
  · cases h; exact ⟨rfl, rfl, rfl⟩

/-- Sweep exhaustion leaves the buffer and first-sample flag untouched and
disarms the timer. -/
theorem sweepAdvance_stopped_fields {s s1 : ExpState}
    (h : sweepAdvance s = SweepStep.stopped s1) :
    s1.buffer = s.buffer ∧ s1.first = s.first ∧ s1.timerActive = false := by
  unfold sweepAdvance at h
  split at h
  · split at h
    · split at h
      · cases h; exact ⟨rfl, rfl, rfl⟩
      · cases h
    · cases h
  · cases h

/-- Runs from a disarmed state do nothing. -/
theorem runFrom_inactive (h : Nat → TickHooks) (t : Nat → ℚ) (i n : Nat) (s : ExpState)
    (hs : s.timerActive = false) : runFrom h t i n s = (s, [], none) := by
  cases n with
  | zero => rfl
  | succ n => simp [runFrom, hs]

/-- Composing runs: when the first m firings complete without error, a run
of m + n firings is the m-firing run followed by an n-firing run from its
final state, with the event lists concatenated. -/
theorem runFrom_append_ok (h : Nat → TickHooks) (t : Nat → ℚ) (m : Nat) :
    ∀ (n i : Nat) (s : ExpState), (runFrom h t i m s).2.2 = none →
      runFrom h t i (m + n) s =
        ((runFrom h t (i + m) n (runFrom h t i m s).1).1,
         (runFrom h t i m s).2.1 ++ (runFrom h t (i + m) n (runFrom h t i m s).1).2.1,
         (runFrom h t (i + m) n (runFrom h t i m s).1).2.2) := by
  induction m with
  | zero =>
    intro n i s _
    simp [runFrom]
  | succ m ih =>
    intro n i s he
    rw [Nat.succ_add]
    by_cases ha : s.timerActive
    · cases hout : (tick (h i) (t i) s).err with
      | some e =>
        simp only [runFrom, ha, if_true, hout] at he
        simp at he
      | none =>
        simp only [runFrom, ha, if_true, hout] at he ⊢
        rw [ih n (i + 1) (tick (h i) (t i) s).state he]
        have hidx : i + (m + 1) = (i + 1) + m := by omega
        rw [hidx]
        simp [List.append_assoc]
    · have hfa : s.timerActive = false := by simpa using ha
      rw [runFrom_inactive h t i (Nat.succ (m + n)) s hfa,
        runFrom_inactive h t i (m + 1) s hfa,
        runFrom_inactive h t (i + (m + 1)) n s hfa]
      simp

/-- C6: when the first four firings of a run complete without error leaving
four accepted rows and the timer armed, and the fifth firing's measurement
function raises, the five-firing run reports exactly that error (propagated
unchanged), the timer ends disarmed, and get_data() afterwards returns
exactly the four rows accepted before the failure. -/
theorem c6_fail_stop (h : Nat → TickHooks) (t : Nat → ℚ) (s s5 : ExpState) (ch : Bool)
    (e : Err)
    (h4 : (runFrom h t 0 4 s).2.2 = none)
    (hlen : (rowsOf (runFrom h t 0 4 s).1).length = 4)
    (ha4 : (runFrom h t 0 4 s).1.timerActive = true)
    (hsw : sweepAdvance (runFrom h t 0 4 s).1 = SweepStep.cont s5 ch)
    (hac : ch = true → (h 4).applyCond (buildRec (t 4) s5.sweepVars s5.varValues) = Except.ok ())
    (hm : (h 4).measure (buildRec (t 4) s5.sweepVars s5.varValues) = Except.error e) :
    (runFrom h t 0 5 s).2.2 = some e ∧
    (runFrom h t 0 5 s).1.timerActive = false ∧
    get_data (runFrom h t 0 5 s).1 = some (rowsOf (runFrom h t 0 4 s).1) ∧
    (rowsOf (runFrom h t 0 4 s).1).length = 4 := by
  have hcomp := runFrom_append_ok h t 4 1 0 s h4
  have htick : (tick (h 4) (t 4) (runFrom h t 0 4 s).1).err = some e ∧
      (tick (h 4) (t 4) (runFrom h t 0 4 s).1).state = disarm s5 := by
    cases ch with
    | false => simp [tick, hsw, hm]
    | true => simp [tick, hsw, hac rfl, hm]
  rw [show (5 : Nat) = 4 + 1 from rfl, hcomp]
  simp only [Nat.zero_add]
  generalize hg : (runFrom h t 0 4 s).1 = s4 at hlen ha4 htick ⊢
  have hbuf : s5.buffer = s4.buffer := by
    have hx := (sweepAdvance_cont_fields hsw).1
    rw [hg] at hx
    exact hx
  have hone : runFrom h t 4 1 s4 = (disarm s5, (tick (h 4) (t 4) s4).events, some e) := by
    simp only [runFrom, ha4, if_true, htick.1, htick.2]
  rw [hone]
  refine ⟨rfl, rfl, ?_, hlen⟩
  show get_data (disarm s5) = some (rowsOf s4)
  cases hb : s4.buffer with
  | none =>
    simp only [rowsOf, hb] at hlen
    simp at hlen
  | some b =>
    simp [get_data, disarm, hbuf, hb, rowsOf]

/-- Witness for C6: a condition-free run whose measurement function raises
on the fifth tick; four rows survive and the error propagates. -/
theorem c6_fail_stop_witness :
    ((runFrom w6Hooks tNat 0 4 (start (mkExperiment none []))).2.2 = none ∧
      (rowsOf (runFrom w6Hooks tNat 0 4 (start (mkExperiment none []))).1).length = 4) ∧
    (runFrom w6Hooks tNat 0 5 (start (mkExperiment none []))).2.2 =
      some (Err.measurementFailure "boom") ∧
    (runFrom w6Hooks tNat 0 5 (start (mkExperiment none []))).1.timerActive = false ∧
    get_data (runFrom w6Hooks tNat 0 5 (start (mkExperiment none []))).1 =
      some (rowsOf (runFrom w6Hooks tNat 0 4 (start (mkExperiment none []))).1) ∧
    (rowsOf (runFrom w6Hooks tNat 0 4 (start (mkExperiment none []))).1).length = 4 :=
  ⟨⟨by decide, by decide⟩,
    c6_fail_stop w6Hooks tNat (start (mkExperiment none []))
      { (runFrom w6Hooks tNat 0 4 (start (mkExperiment none []))).1 with measForCond := 5 }
      false (Err.measurementFailure "boom")
      (by decide) (by decide) (by decide) (by decide)
      (by intro hx; cases hx) (by rfl)⟩

/-- Witness for C10: a fresh condition-free run whose CsvLogger targets a
name already present in the file system fails on the first tick. -/
theorem c10_csv_exclusive_create_witness :
    ("out.csv" ∈ ["out.csv"] ∧
      sweepAdvance (start (mkExperiment none [])) =
        SweepStep.cont { start (mkExperiment none []) with measForCond := 1 } false) ∧
    csvLoggerStart ["out.csv"] "out.csv" = Except.error Err.fileExists ∧
    (tick (csvHooks ["out.csv"] "out.csv" (fun r => Except.ok r)) 0
        (start (mkExperiment none []))).err = some Err.fileExists ∧
    (tick (csvHooks ["out.csv"] "out.csv" (fun r => Except.ok r)) 0
        (start (mkExperiment none []))).state.timerActive = false :=
  ⟨⟨by decide, by decide⟩,
    c10_csv_exclusive_create ["out.csv"] "out.csv" (fun r => Except.ok r) 0
      (start (mkExperiment none []))
      { start (mkExperiment none []) with measForCond := 1 } false
      (buildRec 0 [] [])
      (by decide) (by decide) (by decide) (by decide) (by rfl)⟩

/-- C8: promote_datatype sends int to float and str to the generic object
dtype, so any column whose first value is an integer is frozen at the
floating-point dtype (and any string column at the text dtype); in the
concrete two-tick run whose first measurement carries x = 0 (an int) and
whose second carries x = 1/2, no schemaMismatch is raised, the frozen
dtype of x is float, and both stored x cells are floats (0 stored as
0.0). -/
theorem c8_type_promotion (r : Record) (x : String) (n : Int) (sv : String) :
    promote_datatype Dtype.int = Dtype.float ∧
    promote_datatype Dtype.str = Dtype.object ∧
    ((x, PyVal.int n) ∈ r → (x, Dtype.float) ∈ inferSchema r) ∧
    ((x, PyVal.str sv) ∈ r → (x, Dtype.object) ∈ inferSchema r) ∧
    c8Run.2.2 = none ∧
    c8Run.1.buffer = some
      { schema := [("time", Dtype.float), ("x", Dtype.float)]
        rows := [[PyVal.float 0, PyVal.float 0], [PyVal.float 1, PyVal.float (1 / 2)]]
        cap := 2 } := by
  refine ⟨rfl, rfl, ?_, ?_, by decide, by rfl⟩
  · intro hmem
    exact List.mem_map.mpr ⟨(x, PyVal.int n), hmem, rfl⟩
  · intro hmem
    exact List.mem_map.mpr ⟨(x, PyVal.str sv), hmem, rfl⟩

/-- Witness for C8 at a concrete first record containing an integer-valued
column and a string-valued column. -/
theorem c8_type_promotion_witness :
    (("x", PyVal.int 0) ∈ ([("x", PyVal.int 0), ("s", PyVal.str "hi")] : Record) ∧
      ("s", PyVal.str "hi") ∈ ([("x", PyVal.int 0), ("s", PyVal.str "hi")] : Record)) ∧
    ("x", Dtype.float) ∈ inferSchema [("x", PyVal.int 0), ("s", PyVal.str "hi")] ∧
    ("s", Dtype.object) ∈ inferSchema [("x", PyVal.int 0), ("s", PyVal.str "hi")] ∧
    c8Run.2.2 = none :=
  ⟨⟨by decide, by decide⟩,
    (c8_type_promotion [("x", PyVal.int 0), ("s", PyVal.str "hi")] "x" 0 "hi").2.2.1
      (by decide),
    (c8_type_promotion [("x", PyVal.int 0), ("s", PyVal.str "hi")] "s" 0 "hi").2.2.2.1
      (by decide),
    (c8_type_promotion [] "x" 0 "hi").2.2.2.2.1⟩

/-- Splitting a line that contains no separator yields that single token. -/
theorem splitSep_no_sep (sep : Char) (t : List Char) (h : sep ∉ t) :
    splitSep sep t = [t] := by
  induction t with
  | nil => rfl
  | cons c cs ih =>
    have hcs : sep ∉ cs := fun hx => h (List.mem_cons_of_mem c hx)
    have hc : ¬c = sep := fun hx => h (hx ▸ List.mem_cons_self c cs)
    simp only [splitSep, ih hcs]
    rw [if_neg hc]

/-- Splitting never yields the empty token list. -/
theorem splitSep_ne_nil (sep : Char) (l : List Char) : splitSep sep l ≠ [] := by
  cases l with
  | nil => simp [splitSep]
  | cons c cs =>
    simp only [splitSep]
    cases splitSep sep cs <;> by_cases hc : c = sep <;> simp [hc]

/-- Splitting a line formed by a separator-free token, the separator, and a
remainder peels off exactly that token. -/
theorem splitSep_append (sep : Char) (t u : List Char) (h : sep ∉ t) :
    splitSep sep (t ++ sep :: u) = t :: splitSep sep u := by
  induction t with
  | nil =>
    simp only [List.nil_append, splitSep]
    cases hu : splitSep sep u with
    | nil => exact absurd hu (splitSep_ne_nil sep u)
    | cons v vs => simp
  | cons c cs ih =>
    have hcs : sep ∉ cs := fun hx => h (List.mem_cons_of_mem c hx)
    have hc : ¬c = sep := fun hx => h (hx ▸ List.mem_cons_self c cs)
    simp only [List.cons_append, splitSep, List.append_eq, ih hcs]
    rw [if_neg hc]

/-- Splitting at the separator inverts joining with it, for a nonempty list
of separator-free tokens. -/
theorem splitSep_joinSep (sep : Char) (ts : List (List Char)) (hne : ts ≠ [])
    (hsep : ∀ t ∈ ts, sep ∉ t) :
    splitSep sep (joinSep sep ts) = ts := by
  induction ts with
  | nil => exact absurd rfl hne
  | cons t ts ih =>
    cases ts with
    | nil =>
      show splitSep sep (joinSep sep [t]) = [t]
      exact splitSep_no_sep sep t (hsep t (List.mem_cons_self t []))
    | cons t2 ts2 =>
      show splitSep sep (t ++ sep :: joinSep sep (t2 :: ts2)) = t :: t2 :: ts2
      rw [splitSep_append sep t _ (hsep t (List.mem_cons_self t _))]
      rw [ih (by simp) (fun u hu => hsep u (List.mem_cons_of_mem t hu))]

/-- C9 counterexample: writing a two-column table with the separator set to
a semicolon and reading the file back does not reconstruct the column
order: the reader splits at commas only, so the whole header collapses
into a single column whose name still contains the semicolon.  This
refutes the round-trip claim for an arbitrary configured separator. -/
theorem c9_semicolon_roundtrip_fails :
    (read_csv (csvWrite ';' [['a'], ['b']] [[['1'], ['2']]])).1 = [['a', ';', 'b']] ∧
    read_csv (csvWrite ';' [['a'], ['b']] [[['1'], ['2']]]) ≠
      ([['a'], ['b']], [[['1'], ['2']]]) := by
  refine ⟨?_, ?_⟩ <;> decide

/-- C9 amended: the write-then-read round trip holds for the default comma
separator: for any table whose column names and cell texts are nonempty
per line and comma-free, reading the written file reconstructs the same
column order and the same cell texts (the utf-8 encode/decode pair is the
identity on the text). -/
theorem c9_amended_comma_roundtrip (names : List (List Char))
    (rows : List (List (List Char)))
    (hne : names ≠ [])
    (hn : ∀ t ∈ names, ',' ∉ t)
    (hr : ∀ row ∈ rows, row ≠ [] ∧ ∀ t ∈ row, ',' ∉ t) :
    read_csv (csvWrite ',' names rows) = (names, rows) := by
  simp only [csvWrite, read_csv, List.map_map, Prod.mk.injEq]
  refine ⟨splitSep_joinSep ',' names hne hn, ?_⟩
  induction rows with
  | nil => rfl
  | cons row rows ih =>
    simp only [List.map_cons, Function.comp]
    rw [splitSep_joinSep ',' row (hr row (List.mem_cons_self row rows)).1
      (hr row (List.mem_cons_self row rows)).2]
    have := ih (fun u hu => hr u (List.mem_cons_of_mem row hu))
    simp only [List.map_map] at this
    rw [this]

/-- Witness for the amended C9: a two-column table with one row holding a
numeric text and a word round-trips under the comma separator. -/
theorem c9_amended_comma_roundtrip_witness :
    (([['t'], ['s']] : List (List Char)) ≠ [] ∧
      ∀ t ∈ ([['t'], ['s']] : List (List Char)), ',' ∉ t) ∧
    read_csv (csvWrite ',' [['t'], ['s']] [[['0'], ['h', 'i']]]) =
      ([['t'], ['s']], [[['0'], ['h', 'i']]]) :=
  ⟨⟨by decide, by decide⟩,
    c9_amended_comma_roundtrip [['t'], ['s']] [[['0'], ['h', 'i']]]
      (by decide) (by decide) (by decide)⟩

/-- States with equal buffers hold equal rows. -/
theorem rowsOf_buffer_eq {x y : ExpState} (h : x.buffer = y.buffer) :
    rowsOf x = rowsOf y := by
  unfold rowsOf
  rw [h]

/-- Filtering logger events distributes over concatenation. -/
theorem loggerEvents_append (a b : List Event) :
    loggerEvents (a ++ b) = loggerEvents a ++ loggerEvents b :=
  List.filter_append a b

/-- The tail of a successful tick appends the row, clears the first-sample
flag and emits the logger start hook (on the first sample), the log hook
and the plot call, in order. -/
theorem finishTick_ok_cases (h : TickHooks) (s1 : ExpState) (evs : List Event)
    (b : Buffer) (vals : List PyVal)
    (hok : (finishTick h s1 evs b vals).err = none) :
    (finishTick h s1 evs b vals).state =
      { s1 with buffer := some (bufAppend b vals), first := false } ∧
    (finishTick h s1 evs b vals).events =
      evs ++ (if s1.first then [Event.logStart (storeRow b.schema vals)] else []) ++
        [Event.logRow (storeRow b.schema vals), Event.plot (bufAppend b vals).rows.length] := by
  simp only [finishTick] at hok ⊢
  cases hls : (if s1.first then h.logStartH (storeRow b.schema vals) else Except.ok ()) with
  | error e => simp [hls] at hok
  | ok u =>
    simp only [hls] at hok ⊢
    cases hlg : h.logH (storeRow b.schema vals) with
    | error e => simp [hlg] at hok
    | ok v =>
      simp only [hlg] at hok ⊢
      refine ⟨trivial, by simp [List.append_assoc]⟩

/-- Case analysis of a tick that raised no exception: either the sweep was
exhausted (timer disarmed, only the logger finish call, buffer and flag
untouched), or exactly one row was accepted, the first-sample flag ends
cleared, the timer state is preserved, and the logger calls of the tick are
the start call on a first sample followed by one log call, both carrying
the appended row. -/
theorem tick_ok_cases (h : TickHooks) (e : ℚ) (s : ExpState)
    (hok : (tick h e s).err = none) :
    ((tick h e s).state.timerActive = false ∧
      (tick h e s).events = [Event.logFinish] ∧
      (tick h e s).state.buffer = s.buffer ∧
      (tick h e s).state.first = s.first) ∨
    (∃ row, rowsOf (tick h e s).state = rowsOf s ++ [row] ∧
      (tick h e s).state.first = false ∧
      (tick h e s).state.timerActive = s.timerActive ∧
      loggerEvents (tick h e s).events =
        (if s.first then [Event.logStart row] else []) ++ [Event.logRow row]) := by
  cases hsw : sweepAdvance s with
  | stopped s1 =>
    obtain ⟨hb, hf, ht⟩ := sweepAdvance_stopped_fields hsw
    left
    simp only [tick, hsw]
    refine ⟨ht, trivial, hb, hf⟩
  | cont s1 ch =>
    obtain ⟨hb, hf, ht⟩ := sweepAdvance_cont_fields hsw
    right
    simp only [tick, hsw] at hok ⊢
    cases hac : (if ch = true then h.applyCond (buildRec e s1.sweepVars s1.varValues)
        else Except.ok ()) with
    | error e2 => simp [hac] at hok
    | ok u =>
      simp only [hac] at hok ⊢
      cases hm : h.measure (buildRec e s1.sweepVars s1.varValues) with
      | error e2 => simp [hm] at hok
      | ok rec1 =>
        simp only [hm] at hok ⊢
        cases hb1 : s1.buffer with
        | none =>
          simp only [hb1] at hok ⊢
          have hstor : storableRow (newBuffer rec1).schema (rec1.map Prod.snd) = true := by
            simpa [newBuffer] using storableRow_inferSchema rec1
          rw [if_pos hstor] at hok ⊢
          obtain ⟨hst, hev⟩ :=
            finishTick_ok_cases h s1 _ (newBuffer rec1) (rec1.map Prod.snd) hok
          refine ⟨storeRow (newBuffer rec1).schema (rec1.map Prod.snd), ?_, ?_, ?_, ?_⟩
          · rw [hst]
            have hsb : s.buffer = none := by rw [← hb, hb1]
            simp [rowsOf, hsb, bufAppend_rows, newBuffer]
          · rw [hst]
          · rw [hst, ← ht]
          · rw [hev, ← hf]
            cases hsf : s1.first <;> cases hch : ch <;>
              simp [loggerEvents, isLoggerEvent, List.filter_append]
        | some b =>
          simp only [hb1] at hok ⊢
          by_cases hcols : rec1.map Prod.fst = b.schema.map Prod.fst
          · simp only [if_pos hcols] at hok ⊢
            by_cases hstor : storableRow b.schema (rec1.map Prod.snd) = true
            case neg =>
              rw [if_neg hstor] at hok
              simp at hok
            rw [if_pos hstor] at hok ⊢
            obtain ⟨hst, hev⟩ := finishTick_ok_cases h s1 _ b (rec1.map Prod.snd) hok
            refine ⟨storeRow b.schema (rec1.map Prod.snd), ?_, ?_, ?_, ?_⟩
            · rw [hst]
              have hsb : s.buffer = some b := by rw [← hb, hb1]
              simp [rowsOf, hsb, bufAppend_rows]
            · rw [hst]
            · rw [hst, ← ht]
            · rw [hev, ← hf]
              cases hsf : s1.first <;> cases hch : ch <;>
                simp [loggerEvents, isLoggerEvent, List.filter_append]
          · simp only [if_neg hcols] at hok
            simp at hok

/-- Logger-call trace of an error-free run segment from an armed state: the
rows grow by some list of accepted rows; the first-sample flag survives
exactly when no row was accepted; and the logger calls are a start call on
the first accepted row when the segment began on a fresh run, one log call
per accepted row in insertion order, and a finish call exactly when the
segment ended by sweep exhaustion. -/
theorem runFrom_logger_trace (h : Nat → TickHooks) (t : Nat → ℚ) :
    ∀ (n i : Nat) (s : ExpState), s.timerActive = true →
      (runFrom h t i n s).2.2 = none →
      ∃ newRows,
        rowsOf (runFrom h t i n s).1 = rowsOf s ++ newRows ∧
        (runFrom h t i n s).1.first = (s.first && newRows.isEmpty) ∧
        loggerEvents (runFrom h t i n s).2.1 =
          (match newRows with
            | [] => []
            | r :: _ => if s.first then [Event.logStart r] else []) ++
          newRows.map Event.logRow ++
          (if (runFrom h t i n s).1.timerActive then [] else [Event.logFinish]) := by
  intro n
  induction n with
  | zero =>
    intro i s ha _
    refine ⟨[], by simp [runFrom], ?_, ?_⟩
    · simp [runFrom]
    · simp [runFrom, loggerEvents, ha]
  | succ n ih =>
    intro i s ha hok
    simp only [runFrom, ha, if_true] at hok ⊢
    cases hout : (tick (h i) (t i) s).err with
    | some e2 => simp [hout] at hok
    | none =>
      simp only [hout] at hok ⊢
      rcases tick_ok_cases (h i) (t i) s hout with
        ⟨htmr, hevs, hbuf, hfst⟩ | ⟨row, hrows, hfirst, htimer, hlog⟩
      · rw [runFrom_inactive h t (i + 1) n _ htmr] at hok ⊢
        refine ⟨[], ?_, ?_, ?_⟩
        · simpa using rowsOf_buffer_eq hbuf
        · simp [hfst]
        · simp [hevs, htmr, loggerEvents, isLoggerEvent]
      · have ha2 : (tick (h i) (t i) s).state.timerActive = true := by
          rw [htimer]; exact ha
        obtain ⟨nr, hr2, hf2, hl2⟩ := ih (i + 1) (tick (h i) (t i) s).state ha2 hok
        refine ⟨row :: nr, ?_, ?_, ?_⟩
        · rw [hr2, hrows]
          simp
        · rw [hf2, hfirst]
          simp
        · rw [loggerEvents_append, hlog, hl2, hfirst]
          cases nr <;> cases hsf : s.first <;> simp [List.append_assoc]

/-- C5: a run started fresh (first-sample flag raised, no buffer, timer
armed) that completes n firings without error and accepts at least one
sample — whether it ends by sweep exhaustion during those firings or stays
armed and is then stopped explicitly — delivers to the registered logger
exactly one start call carrying the first accepted sample, exactly one log
call per accepted sample in insertion order, and exactly one finish call,
with the start call first and the finish call last. -/
theorem c5_logger_lifecycle (h : Nat → TickHooks) (t : Nat → ℚ) (n : Nat) (s : ExpState)
    (r1 : Row) (rest : List Row)
    (ha : s.timerActive = true)
    (hf : s.first = true)
    (hb : s.buffer = none)
    (hok : (runFrom h t 0 n s).2.2 = none)
    (hk : rowsOf (runFrom h t 0 n s).1 = r1 :: rest) :
    loggerEvents ((runFrom h t 0 n s).2.1 ++
        (if (runFrom h t 0 n s).1.timerActive then (stop (runFrom h t 0 n s).1).2 else [])) =
      Event.logStart r1 :: (r1 :: rest).map Event.logRow ++ [Event.logFinish] := by
  obtain ⟨newRows, hr, hfst, hl⟩ := runFrom_logger_trace h t n 0 s ha hok
  have hsrows : rowsOf s = [] := by simp [rowsOf, hb]
  rw [hsrows, List.nil_append] at hr
  rw [hk] at hr
  subst hr
  rw [hf] at hl
  rw [loggerEvents_append, hl]
  cases hta : (runFrom h t 0 n s).1.timerActive with
  | false => simp [loggerEvents, isLoggerEvent]
  | true => simp [stop, loggerEvents, isLoggerEvent]

/-- Witness for C5: a sweep of one condition row with one repeat accepts a
single sample on the first tick and exhausts on the second; the logger
receives start with that sample, one log call, and finish, in order. -/
theorem c5_logger_lifecycle_witness :
    ((runFrom (fun _ => okHooks) tNat 0 2 (start (mkExperiment none
        [("v", [PyVal.int 1])]))).2.2 = none ∧
      rowsOf (runFrom (fun _ => okHooks) tNat 0 2 (start (mkExperiment none
        [("v", [PyVal.int 1])]))).1 = [[PyVal.float 0, PyVal.float 1]]) ∧
    loggerEvents ((runFrom (fun _ => okHooks) tNat 0 2 (start (mkExperiment none
        [("v", [PyVal.int 1])]))).2.1 ++
        (if (runFrom (fun _ => okHooks) tNat 0 2 (start (mkExperiment none
            [("v", [PyVal.int 1])]))).1.timerActive then
          (stop (runFrom (fun _ => okHooks) tNat 0 2 (start (mkExperiment none
            [("v", [PyVal.int 1])]))).1).2
        else [])) =
      Event.logStart [PyVal.float 0, PyVal.float 1] ::
        ([[PyVal.float 0, PyVal.float 1]] : List Row).map Event.logRow ++
        [Event.logFinish] :=
  ⟨⟨by decide, by decide⟩,
    c5_logger_lifecycle (fun _ => okHooks) tNat 2
      (start (mkExperiment none [("v", [PyVal.int 1])]))
      [PyVal.float 0, PyVal.float 1] []
      (by decide) (by decide) (by decide) (by decide) (by decide)⟩

end XLab
